import Mathlib

/-!
A shallow embedding of the game core of `src/script.js` (a lane-crossing
runner): the grid constants, row metadata, the move queue and its
validation, the row generators, vehicle traffic animation, the player step
animation, collision detection and the per-frame loop.  Randomness
(`Math.random` through `randomElement` and `THREE.MathUtils.randInt`) is
modelled by explicit parameters and sample streams, and continuous world
coordinates (JS numbers) are modelled as rationals.  Module-level mutable
globals become fields of an explicit `GameState` record threaded through
the operations.
-/

/-- Embeds `const minTileIndex = -8` (script.js line 4). -/
def minTileIndex : Int := -8

/-- Embeds `const maxTileIndex = 8` (script.js line 5). -/
def maxTileIndex : Int := 8

/-- Embeds `const tilesPerRow = maxTileIndex - minTileIndex + 1` (line 6). -/
def tilesPerRow : Int := maxTileIndex - minTileIndex + 1

/-- Embeds `const tileSize = 42` (script.js line 7), a world-unit scalar. -/
def tileSize : ℚ := 42

/-- One tree entry of a forest row: `{ tileIndex, height }` (named
`TreeData` because Mathlib already declares `Tree`). -/
structure TreeData where
  tileIndex : Int
  height : Nat
deriving DecidableEq, Repr

/-- One vehicle entry of a car/truck row: `{ initialTileIndex, color }`
plus the backing 3D object's world x-offset `ref.position.x`, set to
`initialTileIndex * tileSize` by the `Car`/`Truck` constructors
(script.js 152, 486) and mutated by `animateVehicles`. -/
structure Vehicle where
  initialTileIndex : Int
  color : Nat
  x : ℚ
deriving DecidableEq, Repr

/-- Row metadata as produced by `generateRow`: a forest, a car lane or a
truck lane (script.js 666-739). -/
inductive RowData where
  | forest (trees : List TreeData)
  | car (direction : Bool) (speed : ℚ) (vehicles : List Vehicle)
  | truck (direction : Bool) (speed : ℚ) (vehicles : List Vehicle)
deriving DecidableEq, Repr

/-- A grid position object `{ rowIndex, tileIndex }` as passed to
`calculateFinalPosition` and `endsUpInValidPosition`. -/
structure Position where
  rowIndex : Int
  tileIndex : Int
deriving DecidableEq, Repr

/-- The module-level mutable state of script.js gathered into one record:
the committed grid position (`position.currentRow` / `currentTile`), the
pending `movesQueue`, the generated-row list `metadata`, the logical
player world position (`player.position`), the step clock (`moveClock`)
and whether a render loop is installed (`renderer.setAnimationLoop(...)`
as opposed to `null` after `showGameOver`). -/
structure GameState where
  currentRow : Int
  currentTile : Int
  movesQueue : List String
  metadata : List RowData
  playerX : ℚ
  playerY : ℚ
  playerZ : ℚ
  moveElapsed : ℚ
  moveRunning : Bool
  loopActive : Bool
deriving DecidableEq, Repr

/-- The reducer body of `calculateFinalPosition` (script.js 569-591):
apply one direction's delta; a direction matching none of the four cases
returns the position unchanged. -/
def moveStep (position : Position) (direction : String) : Position :=
  if direction = "forward" then
    { rowIndex := position.rowIndex + 1, tileIndex := position.tileIndex }
  else if direction = "backward" then
    { rowIndex := position.rowIndex - 1, tileIndex := position.tileIndex }
  else if direction = "left" then
    { rowIndex := position.rowIndex, tileIndex := position.tileIndex - 1 }
  else if direction = "right" then
    { rowIndex := position.rowIndex, tileIndex := position.tileIndex + 1 }
  else position

/-- Embeds `calculateFinalPosition(currentPosition, moves)`: the reduce
over the moves array (script.js 568-592). -/
def calculateFinalPosition (currentPosition : Position) (moves : List String) : Position :=
  moves.foldl moveStep currentPosition

/-- JS array lookup `metadata[i]`: `none` models `undefined`, returned for
a negative index or one at or beyond the length. -/
def rowAt (metadata : List RowData) (i : Int) : Option RowData :=
  if 0 ≤ i then metadata[i.toNat]? else none

/-- The tree test of `endsUpInValidPosition` (script.js 614-623): the row
`metadata[finalPosition.rowIndex - 1]` exists, is a forest, and one of its
trees sits on the final tile. -/
def treeBlocked (metadata : List RowData) (finalPosition : Position) : Bool :=
  match rowAt metadata (finalPosition.rowIndex - 1) with
  | some (RowData.forest trees) =>
      trees.any (fun tree => tree.tileIndex = finalPosition.tileIndex)
  | _ => false

/-- Embeds `endsUpInValidPosition(currentPosition, moves)`
(script.js 600-626): the edge-of-board equality tests, then the tree test. -/
def endsUpInValidPosition (metadata : List RowData) (currentPosition : Position)
    (moves : List String) : Bool :=
  let finalPosition := calculateFinalPosition currentPosition moves
  if finalPosition.rowIndex = -1 ∨ finalPosition.tileIndex = minTileIndex - 1 ∨
      finalPosition.tileIndex = maxTileIndex + 1 then
    false
  else if treeBlocked metadata finalPosition then
    false
  else
    true

/-- The position object `{rowIndex: position.currentRow, tileIndex:
position.currentTile}` built inside `queueMove` (script.js 361-364). -/
def committedPosition (s : GameState) : Position :=
  { rowIndex := s.currentRow, tileIndex := s.currentTile }

/-- Embeds `queueMove(direction)` (script.js 359-371).  The first
component is the JS return value: `none` models `undefined`, which the
function returns on both paths (a bare `return;` for an invalid move, and
falling off the end after the push otherwise). -/
def queueMove (s : GameState) (direction : String) : Option Bool × GameState :=
  let isValidMove := endsUpInValidPosition s.metadata (committedPosition s)
    (s.movesQueue ++ [direction])
  if isValidMove = false then (none, s)
  else (none, { s with movesQueue := s.movesQueue ++ [direction] })

/-- The prospective final position `queueMove` validates: every queued
move plus the new one folded over the committed position. -/
def queuedFinal (s : GameState) (direction : String) : Position :=
  calculateFinalPosition (committedPosition s) (s.movesQueue ++ [direction])

/-- Embeds `stepCompleted()` (script.js 376-389): shift the queue head,
apply its delta to the committed position, and append freshly generated
rows when the player nears the end of the timeline (`addRows`, whose
`generateRows(20)` output is modelled by the `newRows` argument).
`shift()` on an empty queue yields `undefined`, so no delta fires there,
but the `addRows` guard still runs. -/
def stepCompleted (newRows : List RowData) (s : GameState) : GameState :=
  match s.movesQueue with
  | [] =>
    if s.currentRow > (s.metadata.length : Int) - 10 then
      { s with metadata := s.metadata ++ newRows }
    else s
  | direction :: rest =>
    let row := if direction = "forward" then s.currentRow + 1
      else if direction = "backward" then s.currentRow - 1 else s.currentRow
    let tile := if direction = "left" then s.currentTile - 1
      else if direction = "right" then s.currentTile + 1 else s.currentTile
    let md := if row > (s.metadata.length : Int) - 10 then s.metadata ++ newRows
      else s.metadata
    { s with currentRow := row, currentTile := tile, movesQueue := rest, metadata := md }

/-- Embeds `initializeGame()` = `initializePlayer()` + `initializeMap()` +
`hideGameOver()` (script.js 1045-1050): committed position (0,0), empty
queue, a fresh generated timeline (modelled by `newRows`), the player at
the origin, the step clock stopped, and the animation loop reinstalled by
`hideGameOver` (script.js 1005). -/
def initializeGame (newRows : List RowData) : GameState :=
  { currentRow := 0, currentTile := 0, movesQueue := [], metadata := newRows,
    playerX := 0, playerY := 0, playerZ := 0,
    moveElapsed := 0, moveRunning := false, loopActive := true }

/-- One externally triggered mutation of the queue/position state: a
`queueMove` input event, or the head move's animation completing. -/
inductive GameAction where
  | move (direction : String)
  | complete (newRows : List RowData)

/-- Apply one `GameAction` to the state. -/
def applyAction (s : GameState) (a : GameAction) : GameState :=
  match a with
  | GameAction.move direction => (queueMove s direction).2
  | GameAction.complete newRows => stepCompleted newRows s

/-- Run a sequence of queue/step actions from a starting state. -/
def runActions (acts : List GameAction) (s : GameState) : GameState :=
  acts.foldl applyAction s

/-- The rejection loop `do { tileIndex = randInt(minTileIndex,
maxTileIndex) } while (occupiedTiles.has(tileIndex))` shared by the three
row generators (script.js 669-672, 694-697, 722-725).  `stream k` is the
k-th `randInt` result.  The JS loop has no retry bound, so `fuel` counts
loop iterations here and `none` means the loop is still spinning after
`fuel` samples; on acceptance the sample and the next stream index are
returned. -/
def sampleRejecting (stream : Nat → Int) (occupied : List Int) (idx fuel : Nat) :
    Option (Int × Nat) :=
  match fuel with
  | 0 => none
  | Nat.succ remaining =>
    let t := stream idx
    if t ∈ occupied then sampleRejecting stream occupied (idx + 1) remaining
    else some (t, idx + 1)

/-- The tiles marked occupied for an accepted forest tree (script.js 673):
just its own tile. -/
def forestMark (tileIndex : Int) : List Int := [tileIndex]

/-- The tiles marked occupied for an accepted car (script.js 699-701);
this is also the car's 3-lane footprint
`initialTileIndex-1 .. initialTileIndex+1`. -/
def carMark (initialTileIndex : Int) : List Int :=
  [initialTileIndex - 1, initialTileIndex, initialTileIndex + 1]

/-- The tiles marked occupied for an accepted truck (script.js 727-731);
this is also the truck's 5-lane footprint
`initialTileIndex-2 .. initialTileIndex+2`. -/
def truckMark (initialTileIndex : Int) : List Int :=
  [initialTileIndex - 2, initialTileIndex - 1, initialTileIndex,
   initialTileIndex + 1, initialTileIndex + 2]

/-- The `Array.from({length: count}, ...)` loop of the generators: draw
`count` accepted tile indices in order, marking `mark c` occupied after
each acceptance (the JS `Set` is modelled as a list queried by
membership). -/
def genCenters (mark : Int → List Int) (count : Nat) (stream : Nat → Int)
    (idx : Nat) (occupied : List Int) (fuel : Nat) : Option (List Int) :=
  match count with
  | 0 => some []
  | Nat.succ n =>
    match sampleRejecting stream occupied idx fuel with
    | none => none
    | some (c, idx2) =>
      match genCenters mark n stream idx2 (occupied ++ mark c) fuel with
      | none => none
      | some cs => some (c :: cs)

/-- Embeds `generateForesMetadata()` (script.js 666-681; the name is the
source's, typo included).  The i-th tree's `randomElement([20, 45, 60])`
height is supplied as `heightOf i`, the `randInt` samples as `stream`. -/
def generateForesMetadata (heightOf : Nat → Nat) (stream : Nat → Int) (fuel : Nat) :
    Option RowData :=
  match genCenters forestMark 4 stream 0 [] fuel with
  | none => none
  | some cs => some (RowData.forest (cs.enum.map
      (fun ic => { tileIndex := ic.2, height := heightOf ic.1 })))

/-- Embeds `generateCarLaneMetadata()` (script.js 687-709): the sampled
direction, speed and the i-th car's colour are supplied as arguments; each
car's backing object starts at world offset `initialTileIndex * tileSize`
(the `Car` constructor, script.js 152). -/
def generateCarLaneMetadata (direction : Bool) (speed : ℚ) (colorOf : Nat → Nat)
    (stream : Nat → Int) (fuel : Nat) : Option RowData :=
  match genCenters carMark 3 stream 0 [] fuel with
  | none => none
  | some cs => some (RowData.car direction speed (cs.enum.map
      (fun ic => { initialTileIndex := ic.2, color := colorOf ic.1,
                   x := (ic.2 : ℚ) * tileSize })))

/-- Embeds `generateTruckLaneMetadata()` (script.js 715-739), analogously
with 2 trucks and the 5-lane marking. -/
def generateTruckLaneMetadata (direction : Bool) (speed : ℚ) (colorOf : Nat → Nat)
    (stream : Nat → Int) (fuel : Nat) : Option RowData :=
  match genCenters truckMark 2 stream 0 [] fuel with
  | none => none
  | some cs => some (RowData.truck direction speed (cs.enum.map
      (fun ic => { initialTileIndex := ic.2, color := colorOf ic.1,
                   x := (ic.2 : ℚ) * tileSize })))

/-- Embeds `const beginningOfRow = (minTileIndex - 2) * tileSize`
(script.js 800). -/
def beginningOfRow : ℚ := ((minTileIndex : ℚ) - 2) * tileSize

/-- Embeds `const endOfRow = (maxTileIndex + 2) * tileSize`
(script.js 801). -/
def endOfRow : ℚ := ((maxTileIndex : ℚ) + 2) * tileSize

/-- One vehicle's `ref.position.x` update in `animateVehicles`
(script.js 807-817): a strict comparison against the wrap bound decides
between wrapping and advancing by `speed * delta`. -/
def animateVehicleX (direction : Bool) (speed delta x : ℚ) : ℚ :=
  if direction then
    if x > endOfRow then beginningOfRow else x + speed * delta
  else
    if x < beginningOfRow then endOfRow else x - speed * delta

/-- `animateVehicles` restricted to one metadata row (script.js 797-820):
forest rows are untouched, every vehicle of a road row moves. -/
def animateVehiclesRow (delta : ℚ) : RowData → RowData
  | RowData.forest trees => RowData.forest trees
  | RowData.car direction speed vehicles =>
      RowData.car direction speed (vehicles.map
        (fun v => { v with x := animateVehicleX direction speed delta v.x }))
  | RowData.truck direction speed vehicles =>
      RowData.truck direction speed (vehicles.map
        (fun v => { v with x := animateVehicleX direction speed delta v.x }))

/-- Embeds `animateVehicles()` (script.js 793-821), with
`delta = clock.getDelta()` supplied per frame. -/
def animateVehicles (delta : ℚ) (metadata : List RowData) : List RowData :=
  metadata.map (animateVehiclesRow delta)

/-- Embeds `THREE.MathUtils.lerp(x, y, t) = x + (y - x) * t`. -/
def lerp (x y t : ℚ) : ℚ := x + (y - x) * t

/-- Embeds `const stepTime = 0.2` seconds (script.js 751). -/
def stepTime : ℚ := 0.2

/-- Embeds `setPosition(progress)` (script.js 768-784): interpolate the
player's continuous position from the committed tile toward the target of
the head move `movesQueue[0]`. -/
def setPosition (progress : ℚ) (s : GameState) : GameState :=
  let startX := (s.currentTile : ℚ) * tileSize
  let startY := (s.currentRow : ℚ) * tileSize
  let endX := if s.movesQueue.head? = some "left" then startX - tileSize
    else if s.movesQueue.head? = some "right" then startX + tileSize else startX
  let endY := if s.movesQueue.head? = some "forward" then startY + tileSize
    else if s.movesQueue.head? = some "backward" then startY - tileSize else startY
  { s with playerX := lerp startX endX progress, playerY := lerp startY endY progress }

/-- Embeds `animatePlayer()` (script.js 746-762).  `moveClock` measures
wall time: started within a tick it reads back 0 in that same tick, and
each later tick adds the frame's `delta`, so the clock is modelled by the
`moveElapsed`/`moveRunning` fields.  `newRows` stands for the rows
`addRows()` would generate should `stepCompleted` trigger it. -/
def animatePlayer (delta : ℚ) (newRows : List RowData) (s : GameState) : GameState :=
  if s.movesQueue = [] then s
  else
    let elapsed := if s.moveRunning then s.moveElapsed + delta else 0
    let progress := min 1 (elapsed / stepTime)
    let s2 := setPosition progress { s with moveElapsed := elapsed, moveRunning := true }
    if 1 ≤ progress then { stepCompleted newRows s2 with moveRunning := false }
    else s2

/-- An axis-aligned box, as `THREE.Box3`. -/
structure Box3 where
  minX : ℚ
  maxX : ℚ
  minY : ℚ
  maxY : ℚ
  minZ : ℚ
  maxZ : ℚ
deriving DecidableEq, Repr

/-- Embeds `Box3.setFromCenterAndSize(center, size)`. -/
def boxFromCenterSize (cx cy cz sx sy sz : ℚ) : Box3 :=
  { minX := cx - sx / 2, maxX := cx + sx / 2,
    minY := cy - sy / 2, maxY := cy + sy / 2,
    minZ := cz - sz / 2, maxZ := cz + sz / 2 }

/-- Embeds `Box3.intersectsBox` (three.js): boxes that merely touch count
as intersecting. -/
def intersectsBox (a b : Box3) : Bool :=
  !(decide (b.maxX < a.minX) || decide (b.minX > a.maxX) ||
    decide (b.maxY < a.minY) || decide (b.minY > a.maxY) ||
    decide (b.maxZ < a.minZ) || decide (b.minZ > a.maxZ))

/-- The image of a box under the vehicle-group rotation
`rotation.z = Math.PI` applied when `direction` is false (script.js 153,
487): (x, y) becomes (-x, -y). -/
def rotateZPi (b : Box3) : Box3 :=
  { minX := -b.maxX, maxX := -b.minX, minY := -b.maxY, maxY := -b.minY,
    minZ := b.minZ, maxZ := b.maxZ }

/-- Translate a box in the xy-plane (vehicle groups never move in z). -/
def translateBox (b : Box3) (dx dy : ℚ) : Box3 :=
  { b with minX := b.minX + dx, maxX := b.maxX + dx,
           minY := b.minY + dy, maxY := b.maxY + dy }

/-- Embeds `Box3.union`. -/
def boxUnion (a b : Box3) : Box3 :=
  { minX := min a.minX b.minX, maxX := max a.maxX b.maxX,
    minY := min a.minY b.minY, maxY := max a.maxY b.maxY,
    minZ := min a.minZ b.minZ, maxZ := max a.maxZ b.maxZ }

/-- The local-space boxes of the meshes of the `Car` group
(script.js 150-201): main body 60 by 30 by 15 at z = 12, cabin 33 by 24
by 12 at (-6, 0, 25.5), and two wheels 12 by 33 by 12 at (18, 0, 6) and
(-18, 0, 6). -/
def carChildBoxes : List Box3 :=
  [boxFromCenterSize 0 0 12 60 30 15,
   boxFromCenterSize (-6) 0 25.5 33 24 12,
   boxFromCenterSize 18 0 6 12 33 12,
   boxFromCenterSize (-18) 0 6 12 33 12]

/-- The local-space boxes of the meshes of the `Truck` group
(script.js 484-542): cargo 70 by 35 by 35 at (-15, 0, 25), cabin 30 by 30
by 30 at (35, 0, 20), and three wheels 12 by 33 by 12 at x = 37, 5 and
-35. -/
def truckChildBoxes : List Box3 :=
  [boxFromCenterSize (-15) 0 25 70 35 35,
   boxFromCenterSize 35 0 20 30 30 30,
   boxFromCenterSize 37 0 6 12 33 12,
   boxFromCenterSize 5 0 6 12 33 12,
   boxFromCenterSize (-35) 0 6 12 33 12]

/-- Embeds `Box3.setFromObject(ref)` for a vehicle group: the union of the
group's mesh boxes under the group's world transform, which is the
rotation by pi for `direction = false`, then translation by the group's
x-offset and the parent road row's y-offset (script.js 419).  The
empty-children case never arises for the two vehicle groups. -/
def setFromObjectBox (children : List Box3) (direction : Bool) (x y : ℚ) : Box3 :=
  match children.map (fun b => translateBox (if direction then b else rotateZPi b) x y) with
  | [] => boxFromCenterSize x y 0 0 0 0
  | b :: bs => bs.foldl boxUnion b

/-- The player bounding box of `hitTest` (script.js 834-837): centre
`(player.position.x, player.position.y, player.position.z + 10)`, size
`(tileSize * 0.5, tileSize * 0.5, 20)`. -/
def playerBoundingBox (s : GameState) : Box3 :=
  boxFromCenterSize s.playerX s.playerY (s.playerZ + 10)
    (tileSize * 0.5) (tileSize * 0.5) 20

/-- Does `hitTest()` (script.js 826-850) find a vehicle of the row
`metadata[position.currentRow - 1]` whose bounding box intersects the
player's?  The road group holding that row's vehicles sits at world
y = `currentRow * tileSize`: rows are rendered with global index `array
index + 1` (script.js 286). -/
def hitTestHit (s : GameState) : Bool :=
  match rowAt s.metadata (s.currentRow - 1) with
  | some (RowData.car direction _ vehicles) =>
      vehicles.any (fun v => intersectsBox (playerBoundingBox s)
        (setFromObjectBox carChildBoxes direction v.x ((s.currentRow : ℚ) * tileSize)))
  | some (RowData.truck direction _ vehicles) =>
      vehicles.any (fun v => intersectsBox (playerBoundingBox s)
        (setFromObjectBox truckChildBoxes direction v.x ((s.currentRow : ℚ) * tileSize)))
  | _ => false

/-- Embeds `hitTest()` together with its effect: on an intersection
`showGameOver()` clears the animation loop
(`renderer.setAnimationLoop(null)`, script.js 994). -/
def hitTest (s : GameState) : GameState :=
  if hitTestHit s then { s with loopActive := false } else s

/-- One frame of the render loop (script.js 939-955 and 1061-1067): while
an animation loop is installed the browser runs `animateVehicles`, then
`animatePlayer`, then `hitTest`; once the loop is cleared the browser
invokes nothing, so the state is untouched. -/
def frame (delta : ℚ) (newRows : List RowData) (s : GameState) : GameState :=
  if s.loopActive then
    hitTest (animatePlayer delta newRows
      { s with metadata := animateVehicles delta s.metadata })
  else s

/-- Road rows with their vehicle lists emptied, everything else kept:
used to state that move validation never consults vehicles. -/
def stripVehicles : List RowData → List RowData :=
  List.map (fun row => match row with
    | RowData.car direction speed _ => RowData.car direction speed []
    | RowData.truck direction speed _ => RowData.truck direction speed []
    | RowData.forest trees => RowData.forest trees)

/-- The centre lanes of a row's occupants (tree tiles, or vehicle initial
tiles), used to state facts about generated rows. -/
def rowCenters : RowData → List Int
  | RowData.forest trees => trees.map TreeData.tileIndex
  | RowData.car _ _ vs => vs.map Vehicle.initialTileIndex
  | RowData.truck _ _ vs => vs.map Vehicle.initialTileIndex

/-! ## Basic lemmas about the move fold and the queue -/

theorem calcFinal_nil (p : Position) : calculateFinalPosition p [] = p := rfl

theorem calcFinal_cons (p : Position) (m : String) (ms : List String) :
    calculateFinalPosition p (m :: ms) = calculateFinalPosition (moveStep p m) ms := rfl

theorem calcFinal_concat (p : Position) (ms : List String) (d : String) :
    calculateFinalPosition p (ms ++ [d]) = moveStep (calculateFinalPosition p ms) d := by
  simp [calculateFinalPosition, List.foldl_append]

theorem append_singleton_ne (l : List String) (d : String) : l ++ [d] ≠ l := by
  intro h
  have h2 := congrArg List.length h
  simp at h2

theorem queueMove_fst (s : GameState) (d : String) : (queueMove s d).1 = none := by
  cases h : endsUpInValidPosition s.metadata (committedPosition s) (s.movesQueue ++ [d]) <;>
    simp [queueMove, h]

theorem queueMove_state (s : GameState) (d : String) :
    (queueMove s d).2 =
      if endsUpInValidPosition s.metadata (committedPosition s) (s.movesQueue ++ [d]) = true
      then { s with movesQueue := s.movesQueue ++ [d] } else s := by
  cases h : endsUpInValidPosition s.metadata (committedPosition s) (s.movesQueue ++ [d]) <;>
    simp [queueMove, h]

theorem queueMove_admits_iff (s : GameState) (d : String) :
    (queueMove s d).2.movesQueue = s.movesQueue ++ [d] ↔
      endsUpInValidPosition s.metadata (committedPosition s) (s.movesQueue ++ [d]) = true := by
  rw [queueMove_state]
  cases h : endsUpInValidPosition s.metadata (committedPosition s) (s.movesQueue ++ [d])
  · simpa using fun hh => (append_singleton_ne s.movesQueue d) hh.symm
  · simp

theorem queueMove_rejects_iff (s : GameState) (d : String) :
    (queueMove s d).2.movesQueue = s.movesQueue ↔
      endsUpInValidPosition s.metadata (committedPosition s) (s.movesQueue ++ [d]) = false := by
  rw [queueMove_state]
  cases h : endsUpInValidPosition s.metadata (committedPosition s) (s.movesQueue ++ [d])
  · simp
  · simpa using append_singleton_ne s.movesQueue d

theorem queueMove_keeps_position (s : GameState) (d : String) :
    (queueMove s d).2.currentRow = s.currentRow ∧
      (queueMove s d).2.currentTile = s.currentTile ∧
      (queueMove s d).2.metadata = s.metadata := by
  rw [queueMove_state]
  cases h : endsUpInValidPosition s.metadata (committedPosition s) (s.movesQueue ++ [d]) <;> simp

theorem valid_iff (md : List RowData) (p : Position) (ms : List String) :
    endsUpInValidPosition md p ms = true ↔
      ((calculateFinalPosition p ms).rowIndex ≠ -1 ∧
       (calculateFinalPosition p ms).tileIndex ≠ minTileIndex - 1 ∧
       (calculateFinalPosition p ms).tileIndex ≠ maxTileIndex + 1 ∧
       treeBlocked md (calculateFinalPosition p ms) = false) := by
  simp only [endsUpInValidPosition]
  by_cases h1 : (calculateFinalPosition p ms).rowIndex = -1 ∨
      (calculateFinalPosition p ms).tileIndex = minTileIndex - 1 ∨
      (calculateFinalPosition p ms).tileIndex = maxTileIndex + 1
  · simp [h1]
    tauto
  · push_neg at h1
    cases h2 : treeBlocked md (calculateFinalPosition p ms) <;>
      simp [h1, h2] <;> tauto

theorem calcFinal_row_count (p : Position) (ms : List String) :
    (calculateFinalPosition p ms).rowIndex =
      p.rowIndex + (ms.count "forward" : Int) - (ms.count "backward" : Int) := by
  induction ms generalizing p with
  | nil => simp [calculateFinalPosition]
  | cons m ms ih =>
    rw [calcFinal_cons, ih]
    by_cases hf : m = "forward"
    · subst hf; simp [moveStep, List.count_cons]; omega
    · by_cases hb : m = "backward"
      · subst hb; simp [moveStep, List.count_cons]; omega
      · by_cases hl : m = "left"
        · subst hl; simp [moveStep, List.count_cons]
        · by_cases hr : m = "right"
          · subst hr; simp [moveStep, List.count_cons]
          · simp [moveStep, hf, hb, hl, hr, List.count_cons, Ne.symm hf, Ne.symm hb]

theorem calcFinal_tile_count (p : Position) (ms : List String) :
    (calculateFinalPosition p ms).tileIndex =
      p.tileIndex + (ms.count "right" : Int) - (ms.count "left" : Int) := by
  induction ms generalizing p with
  | nil => simp [calculateFinalPosition]
  | cons m ms ih =>
    rw [calcFinal_cons, ih]
    by_cases hf : m = "forward"
    · subst hf; simp [moveStep, List.count_cons]
    · by_cases hb : m = "backward"
      · subst hb; simp [moveStep, List.count_cons]
      · by_cases hl : m = "left"
        · subst hl; simp [moveStep, List.count_cons]; omega
        · by_cases hr : m = "right"
          · subst hr; simp [moveStep, List.count_cons]; omega
          · simp [moveStep, hf, hb, hl, hr, List.count_cons, Ne.symm hl, Ne.symm hr]

theorem moveStep_unknown (p : Position) (d : String)
    (hf : d ≠ "forward") (hb : d ≠ "backward") (hl : d ≠ "left") (hr : d ≠ "right") :
    moveStep p d = p := by
  simp [moveStep, hf, hb, hl, hr]

theorem valid_depends_on_final (md : List RowData) (p : Position) (ms1 ms2 : List String)
    (h : calculateFinalPosition p ms1 = calculateFinalPosition p ms2) :
    endsUpInValidPosition md p ms1 = endsUpInValidPosition md p ms2 := by
  simp only [endsUpInValidPosition, h]

theorem treeBlocked_strip (md : List RowData) (fp : Position) :
    treeBlocked (stripVehicles md) fp = treeBlocked md fp := by
  unfold treeBlocked rowAt stripVehicles
  by_cases h : 0 ≤ fp.rowIndex - 1
  · simp only [if_pos h, List.getElem?_map]
    cases hrow : md[(fp.rowIndex - 1).toNat]? with
    | none => rfl
    | some row => cases row <;> simp
  · simp only [if_neg h]

theorem valid_strip (md : List RowData) (p : Position) (ms : List String) :
    endsUpInValidPosition (stripVehicles md) p ms = endsUpInValidPosition md p ms := by
  simp only [endsUpInValidPosition, treeBlocked_strip]

/-- C3: `queueMove` validates the position obtained by folding the
direction deltas over the committed position for all queued moves plus the
new one: the fold adds the net forward-minus-backward count to the row and
the net right-minus-left count to the tile, the validated position is the
single-step extension of the fold over the whole queue, and the admission
decision is exactly `endsUpInValidPosition` of the extended queue. -/
theorem c3_validates_folded_position :
    (∀ (p : Position) (ms : List String),
      (calculateFinalPosition p ms).rowIndex =
        p.rowIndex + (ms.count "forward" : Int) - (ms.count "backward" : Int) ∧
      (calculateFinalPosition p ms).tileIndex =
        p.tileIndex + (ms.count "right" : Int) - (ms.count "left" : Int)) ∧
    (∀ (s : GameState) (d : String),
      ((queueMove s d).2.movesQueue = s.movesQueue ++ [d] ↔
        endsUpInValidPosition s.metadata (committedPosition s)
          (s.movesQueue ++ [d]) = true) ∧
      queuedFinal s d =
        moveStep (calculateFinalPosition (committedPosition s) s.movesQueue) d) :=
  ⟨fun p ms => ⟨calcFinal_row_count p ms, calcFinal_tile_count p ms⟩,
   fun s d => ⟨queueMove_admits_iff s d, calcFinal_concat _ _ _⟩⟩

/-- C5 (counterexample): at the freshly initialized state a "forward" move
is admitted — the queue grows — yet `queueMove` returns `undefined`
(modelled `none`), not `true`; a "backward" move is rejected, the queue is
unchanged, yet the return value is again `undefined`, not `false`.  So the
claim that `queueMove` returns `true`/`false` fails on the code. -/
theorem c5_counterexample :
    (queueMove (initializeGame []) "forward").2.movesQueue = ["forward"] ∧
    (queueMove (initializeGame []) "forward").1 ≠ some true ∧
    (queueMove (initializeGame []) "backward").2.movesQueue = [] ∧
    (queueMove (initializeGame []) "backward").1 ≠ some false := by
  refine ⟨?_, ?_, ?_, ?_⟩ <;> decide

/-- C5 (amended): `queueMove` appends the direction to the queue exactly
when `endsUpInValidPosition` accepts the whole extended queue, leaves the
queue and the committed position untouched on rejection, and returns
`undefined` (here `none`) on both paths — admission is reflected only in
the queue state, never in the return value. -/
theorem c5_amended_queue_reflects_admission :
    ∀ (s : GameState) (d : String),
      (queueMove s d).1 = none ∧
      ((queueMove s d).2.movesQueue = s.movesQueue ++ [d] ↔
        endsUpInValidPosition s.metadata (committedPosition s)
          (s.movesQueue ++ [d]) = true) ∧
      ((queueMove s d).2.movesQueue = s.movesQueue ↔
        endsUpInValidPosition s.metadata (committedPosition s)
          (s.movesQueue ++ [d]) = false) ∧
      (queueMove s d).2.currentRow = s.currentRow ∧
      (queueMove s d).2.currentTile = s.currentTile ∧
      (queueMove s d).2.metadata = s.metadata :=
  fun s d => ⟨queueMove_fst s d, queueMove_admits_iff s d, queueMove_rejects_iff s d,
    (queueMove_keeps_position s d).1, (queueMove_keeps_position s d).2.1,
    (queueMove_keeps_position s d).2.2⟩

/-- C9: a direction string other than the four known commands is a zero
delta: the position fold ignores it, `queueMove` admits it exactly when
the current queued-final position is already valid (and then appends it to
the queue), and completing it pops the queue while leaving the committed
row and tile unchanged — a no-op move that still occupies one animation
step. -/
theorem c9_unknown_direction_noop (d : String)
    (hf : d ≠ "forward") (hb : d ≠ "backward") (hl : d ≠ "left") (hr : d ≠ "right") :
    (∀ (p : Position) (ms : List String),
      calculateFinalPosition p (ms ++ [d]) = calculateFinalPosition p ms) ∧
    (∀ s : GameState,
      ((queueMove s d).2.movesQueue = s.movesQueue ++ [d] ↔
        endsUpInValidPosition s.metadata (committedPosition s) s.movesQueue = true)) ∧
    (∀ (s : GameState) (rest : List String) (newRows : List RowData),
      s.movesQueue = d :: rest →
        (stepCompleted newRows s).currentRow = s.currentRow ∧
        (stepCompleted newRows s).currentTile = s.currentTile ∧
        (stepCompleted newRows s).movesQueue = rest) := by
  have hzero : ∀ (p : Position) (ms : List String),
      calculateFinalPosition p (ms ++ [d]) = calculateFinalPosition p ms := by
    intro p ms
    rw [calcFinal_concat, moveStep_unknown _ _ hf hb hl hr]
  refine ⟨hzero, ?_, ?_⟩
  · intro s
    rw [queueMove_admits_iff,
      valid_depends_on_final s.metadata (committedPosition s)
        (s.movesQueue ++ [d]) s.movesQueue (hzero _ _)]
  · intro s rest newRows hq
    simp [stepCompleted, hq, hf, hb, hl, hr]

/-- C9 (witness): the direction "jump" at a state whose queue holds just
"jump": the fold ignores it and completing it leaves the committed
position unchanged while emptying the queue. -/
theorem c9_witness :
    calculateFinalPosition { rowIndex := 0, tileIndex := 0 } (["jump"]) =
      { rowIndex := 0, tileIndex := 0 } ∧
    (stepCompleted [] { initializeGame [] with movesQueue := ["jump"] }).currentRow = 0 ∧
    (stepCompleted [] { initializeGame [] with movesQueue := ["jump"] }).currentTile = 0 ∧
    (stepCompleted [] { initializeGame [] with movesQueue := ["jump"] }).movesQueue = [] := by
  have h := c9_unknown_direction_noop "jump" (by decide) (by decide) (by decide) (by decide)
  have h3 := h.2.2 { initializeGame [] with movesQueue := ["jump"] } [] [] rfl
  exact ⟨h.1 { rowIndex := 0, tileIndex := 0 } [], h3.1, h3.2.1, h3.2.2⟩

/-- C10: a prospective final position whose row maps outside the generated
row list — `metadata[rowIndex - 1]` is `undefined`, which covers the
starting safe strip at row 0 and any row past the current end of the
timeline — is treated as obstacle-free: whenever the boundary equality
checks pass, validation succeeds and `queueMove` admits the move. -/
theorem c10_missing_row_admits (s : GameState) (d : String)
    (hout : (queuedFinal s d).rowIndex - 1 < 0 ∨
      (s.metadata.length : Int) ≤ (queuedFinal s d).rowIndex - 1)
    (h1 : (queuedFinal s d).rowIndex ≠ -1)
    (h2 : (queuedFinal s d).tileIndex ≠ minTileIndex - 1)
    (h3 : (queuedFinal s d).tileIndex ≠ maxTileIndex + 1) :
    endsUpInValidPosition s.metadata (committedPosition s)
      (s.movesQueue ++ [d]) = true ∧
    (queueMove s d).2.movesQueue = s.movesQueue ++ [d] := by
  have hrow : rowAt s.metadata ((queuedFinal s d).rowIndex - 1) = none := by
    unfold rowAt
    rcases hout with h | h
    · rw [if_neg (by omega)]
    · rw [if_pos (by omega)]
      apply List.getElem?_eq_none
      omega
  have hvalid : endsUpInValidPosition s.metadata (committedPosition s)
      (s.movesQueue ++ [d]) = true := by
    rw [valid_iff]
    refine ⟨h1, h2, h3, ?_⟩
    unfold treeBlocked
    rw [show calculateFinalPosition (committedPosition s) (s.movesQueue ++ [d]) =
      queuedFinal s d from rfl, hrow]
  exact ⟨hvalid, (queueMove_admits_iff s d).mpr hvalid⟩

/-- C10 (witness): from the fresh state with an empty generated list, a
"forward" move targets row 1, whose storage index 0 is past the end of the
empty metadata list, and is admitted. -/
theorem c10_witness :
    endsUpInValidPosition (initializeGame []).metadata
      (committedPosition (initializeGame []))
      ((initializeGame []).movesQueue ++ ["forward"]) = true ∧
    (queueMove (initializeGame []) "forward").2.movesQueue =
      (initializeGame []).movesQueue ++ ["forward"] :=
  c10_missing_row_admits (initializeGame []) "forward"
    (by decide) (by decide) (by decide) (by decide)

/-- C4: once the boundary equality checks pass, `queueMove` rejects the
move exactly when the one-row-shifted lookup finds a Forest row with a
tree on the final tile; a boundary-legal move onto a car or truck row is
always admitted, and the vehicle lists are never consulted by validation
(emptying them changes nothing). -/
theorem c4_tree_rejection_exact (s : GameState) (d : String)
    (h1 : (queuedFinal s d).rowIndex ≠ -1)
    (h2 : (queuedFinal s d).tileIndex ≠ minTileIndex - 1)
    (h3 : (queuedFinal s d).tileIndex ≠ maxTileIndex + 1) :
    ((queueMove s d).2.movesQueue = s.movesQueue ↔
      treeBlocked s.metadata (queuedFinal s d) = true) ∧
    (∀ (dir : Bool) (sp : ℚ) (vs : List Vehicle),
      rowAt s.metadata ((queuedFinal s d).rowIndex - 1) = some (RowData.car dir sp vs) →
        (queueMove s d).2.movesQueue = s.movesQueue ++ [d]) ∧
    (∀ (dir : Bool) (sp : ℚ) (vs : List Vehicle),
      rowAt s.metadata ((queuedFinal s d).rowIndex - 1) = some (RowData.truck dir sp vs) →
        (queueMove s d).2.movesQueue = s.movesQueue ++ [d]) ∧
    endsUpInValidPosition (stripVehicles s.metadata) (committedPosition s)
        (s.movesQueue ++ [d]) =
      endsUpInValidPosition s.metadata (committedPosition s) (s.movesQueue ++ [d]) := by
  have hfp : calculateFinalPosition (committedPosition s) (s.movesQueue ++ [d]) =
      queuedFinal s d := rfl
  refine ⟨?_, ?_, ?_, valid_strip _ _ _⟩
  · rw [queueMove_rejects_iff]
    constructor
    · intro hfalse
      by_contra htree
      have : endsUpInValidPosition s.metadata (committedPosition s)
          (s.movesQueue ++ [d]) = true := by
        rw [valid_iff, hfp]
        exact ⟨h1, h2, h3, by simpa using htree⟩
      rw [this] at hfalse
      exact absurd hfalse (by decide)
    · intro htree
      cases hv : endsUpInValidPosition s.metadata (committedPosition s)
          (s.movesQueue ++ [d]) with
      | false => rfl
      | true =>
        rw [valid_iff, hfp] at hv
        rw [htree] at hv
        exact absurd hv.2.2.2 (by decide)
  · intro dir sp vs hrow
    apply (queueMove_admits_iff s d).mpr
    rw [valid_iff, hfp]
    refine ⟨h1, h2, h3, ?_⟩
    unfold treeBlocked
    rw [hrow]
  · intro dir sp vs hrow
    apply (queueMove_admits_iff s d).mpr
    rw [valid_iff, hfp]
    refine ⟨h1, h2, h3, ?_⟩
    unfold treeBlocked
    rw [hrow]

/-- C4 (witness): from a fresh state whose only generated row is a forest
with a tree at tile 0, a "forward" move lands on that tree and is
rejected: the queue stays empty. -/
theorem c4_witness :
    (queueMove (initializeGame [RowData.forest [{ tileIndex := 0, height := 20 }]])
        "forward").2.movesQueue =
      (initializeGame [RowData.forest [{ tileIndex := 0, height := 20 }]]).movesQueue := by
  have h := c4_tree_rejection_exact
    (initializeGame [RowData.forest [{ tileIndex := 0, height := 20 }]]) "forward"
    (by decide) (by decide) (by decide)
  exact h.1.mpr (by decide)

theorem moveStep_close (p : Position) (d : String) :
    p.rowIndex - 1 ≤ (moveStep p d).rowIndex ∧ (moveStep p d).rowIndex ≤ p.rowIndex + 1 ∧
    p.tileIndex - 1 ≤ (moveStep p d).tileIndex ∧ (moveStep p d).tileIndex ≤ p.tileIndex + 1 := by
  unfold moveStep
  split_ifs <;> simp <;> omega

theorem inv_queueMove (s : GameState) (d : String)
    (h : minTileIndex ≤ (calculateFinalPosition (committedPosition s) s.movesQueue).tileIndex ∧
      (calculateFinalPosition (committedPosition s) s.movesQueue).tileIndex ≤ maxTileIndex ∧
      0 ≤ (calculateFinalPosition (committedPosition s) s.movesQueue).rowIndex) :
    minTileIndex ≤ (calculateFinalPosition (committedPosition (queueMove s d).2)
        (queueMove s d).2.movesQueue).tileIndex ∧
    (calculateFinalPosition (committedPosition (queueMove s d).2)
        (queueMove s d).2.movesQueue).tileIndex ≤ maxTileIndex ∧
    0 ≤ (calculateFinalPosition (committedPosition (queueMove s d).2)
        (queueMove s d).2.movesQueue).rowIndex := by
  rw [queueMove_state]
  cases hv : endsUpInValidPosition s.metadata (committedPosition s) (s.movesQueue ++ [d]) with
  | false => simpa using h
  | true =>
    have hb := (valid_iff s.metadata (committedPosition s) (s.movesQueue ++ [d])).mp hv
    rw [calcFinal_concat] at hb
    have hclose := moveStep_close (calculateFinalPosition (committedPosition s) s.movesQueue) d
    have hgoal : committedPosition { s with movesQueue := s.movesQueue ++ [d] } =
        committedPosition s := rfl
    simp only [if_true, reduceIte, hgoal]
    show minTileIndex ≤
        (calculateFinalPosition (committedPosition s) (s.movesQueue ++ [d])).tileIndex ∧
      (calculateFinalPosition (committedPosition s) (s.movesQueue ++ [d])).tileIndex ≤
        maxTileIndex ∧
      0 ≤ (calculateFinalPosition (committedPosition s) (s.movesQueue ++ [d])).rowIndex
    rw [calcFinal_concat]
    obtain ⟨hb1, hb2, hb3, _⟩ := hb
    simp only [minTileIndex, maxTileIndex] at *
    omega

theorem stepCompleted_position (s : GameState) (rows : List RowData) (dir : String)
    (rest : List String) (hq : s.movesQueue = dir :: rest) :
    committedPosition (stepCompleted rows s) = moveStep (committedPosition s) dir ∧
    (stepCompleted rows s).movesQueue = rest := by
  by_cases hf : dir = "forward"
  · subst hf; simp [stepCompleted, hq, moveStep, committedPosition]
  · by_cases hb : dir = "backward"
    · subst hb; simp [stepCompleted, hq, moveStep, committedPosition]
    · by_cases hl : dir = "left"
      · subst hl; simp [stepCompleted, hq, moveStep, committedPosition]
      · by_cases hr : dir = "right"
        · subst hr; simp [stepCompleted, hq, moveStep, committedPosition]
        · simp [stepCompleted, hq, moveStep, committedPosition, hf, hb, hl, hr]

theorem inv_stepCompleted (s : GameState) (rows : List RowData)
    (h : minTileIndex ≤ (calculateFinalPosition (committedPosition s) s.movesQueue).tileIndex ∧
      (calculateFinalPosition (committedPosition s) s.movesQueue).tileIndex ≤ maxTileIndex ∧
      0 ≤ (calculateFinalPosition (committedPosition s) s.movesQueue).rowIndex) :
    minTileIndex ≤ (calculateFinalPosition (committedPosition (stepCompleted rows s))
        (stepCompleted rows s).movesQueue).tileIndex ∧
    (calculateFinalPosition (committedPosition (stepCompleted rows s))
        (stepCompleted rows s).movesQueue).tileIndex ≤ maxTileIndex ∧
    0 ≤ (calculateFinalPosition (committedPosition (stepCompleted rows s))
        (stepCompleted rows s).movesQueue).rowIndex := by
  cases hq : s.movesQueue with
  | nil =>
    have h1 : committedPosition (stepCompleted rows s) = committedPosition s := by
      simp only [stepCompleted, hq]
      split <;> rfl
    have h2 : (stepCompleted rows s).movesQueue = s.movesQueue := by
      simp only [stepCompleted, hq]
      split <;> simp [hq]
    rw [h1, h2]
    exact h
  | cons dir rest =>
    have hsc := stepCompleted_position s rows dir rest hq
    rw [hsc.1, hsc.2, ← calcFinal_cons, ← hq]
    exact h

theorem inv_runActions (acts : List GameAction) :
    ∀ s : GameState,
      (minTileIndex ≤ (calculateFinalPosition (committedPosition s) s.movesQueue).tileIndex ∧
       (calculateFinalPosition (committedPosition s) s.movesQueue).tileIndex ≤ maxTileIndex ∧
       0 ≤ (calculateFinalPosition (committedPosition s) s.movesQueue).rowIndex) →
      minTileIndex ≤ (calculateFinalPosition (committedPosition (runActions acts s))
          (runActions acts s).movesQueue).tileIndex ∧
      (calculateFinalPosition (committedPosition (runActions acts s))
          (runActions acts s).movesQueue).tileIndex ≤ maxTileIndex ∧
      0 ≤ (calculateFinalPosition (committedPosition (runActions acts s))
          (runActions acts s).movesQueue).rowIndex := by
  induction acts with
  | nil => intro s h; exact h
  | cons a acts ih =>
    intro s h
    have hstep : minTileIndex ≤ (calculateFinalPosition (committedPosition (applyAction s a))
          (applyAction s a).movesQueue).tileIndex ∧
        (calculateFinalPosition (committedPosition (applyAction s a))
          (applyAction s a).movesQueue).tileIndex ≤ maxTileIndex ∧
        0 ≤ (calculateFinalPosition (committedPosition (applyAction s a))
          (applyAction s a).movesQueue).rowIndex := by
      cases a with
      | move d => exact inv_queueMove s d h
      | complete rows => exact inv_stepCompleted s rows h
    exact ih (applyAction s a) hstep

/-- C2: starting from the initial position (row 0, lane 0) with any
generated timeline, after any sequence of `queueMove` calls and completed
steps the queued-final position — all queued moves folded over the
committed position — has its tile within `[minTileIndex, maxTileIndex]`
and a non-negative row, even though the validator only tests equality
with `minTileIndex - 1`, `maxTileIndex + 1` and row `-1`. -/
theorem c2_queued_final_position_in_bounds :
    ∀ (newRows0 : List RowData) (acts : List GameAction),
      minTileIndex ≤ (calculateFinalPosition
          (committedPosition (runActions acts (initializeGame newRows0)))
          (runActions acts (initializeGame newRows0)).movesQueue).tileIndex ∧
      (calculateFinalPosition
          (committedPosition (runActions acts (initializeGame newRows0)))
          (runActions acts (initializeGame newRows0)).movesQueue).tileIndex ≤ maxTileIndex ∧
      0 ≤ (calculateFinalPosition
          (committedPosition (runActions acts (initializeGame newRows0)))
          (runActions acts (initializeGame newRows0)).movesQueue).rowIndex :=
  fun newRows0 acts => inv_runActions acts (initializeGame newRows0)
    ⟨(by decide : minTileIndex ≤ (0 : Int)), (by decide : (0 : Int) ≤ maxTileIndex),
     (by decide : (0 : Int) ≤ 0)⟩

/-! ## Lemmas about the rejection-sampling generators -/

theorem sampleRejecting_not_occupied (stream : Nat → Int) (occupied : List Int) :
    ∀ (fuel idx : Nat) (c : Int) (k : Nat),
      sampleRejecting stream occupied idx fuel = some (c, k) → c ∉ occupied := by
  intro fuel
  induction fuel with
  | zero => intro idx c k h; simp [sampleRejecting] at h
  | succ n ih =>
    intro idx c k h
    unfold sampleRejecting at h
    by_cases hm : stream idx ∈ occupied
    · rw [if_pos hm] at h
      exact ih (idx + 1) c k h
    · rw [if_neg hm] at h
      simp at h
      rw [← h.1]
      exact hm

theorem genCenters_separation (mark : Int → List Int) (hw : Int)
    (hmark : ∀ c d : Int, |d - c| ≤ hw → d ∈ mark c) :
    ∀ (count : Nat) (stream : Nat → Int) (idx : Nat) (occupied : List Int)
      (fuel : Nat) (cs : List Int),
      genCenters mark count stream idx occupied fuel = some cs →
      (∀ c ∈ cs, c ∉ occupied) ∧ cs.Pairwise (fun a b => hw + 1 ≤ |a - b|) := by
  intro count
  induction count with
  | zero =>
    intro stream idx occupied fuel cs h
    simp [genCenters] at h
    subst h
    simp
  | succ n ih =>
    intro stream idx occupied fuel cs h
    unfold genCenters at h
    cases hs : sampleRejecting stream occupied idx fuel with
    | none => rw [hs] at h; simp at h
    | some pr =>
      obtain ⟨c, idx2⟩ := pr
      rw [hs] at h
      dsimp only at h
      cases hg : genCenters mark n stream idx2 (occupied ++ mark c) fuel with
      | none => rw [hg] at h; simp at h
      | some cs2 =>
        rw [hg] at h
        simp at h
        subst h
        have hc := sampleRejecting_not_occupied stream occupied fuel idx c idx2 hs
        have hrec := ih stream idx2 (occupied ++ mark c) fuel cs2 hg
        constructor
        · intro x hx
          rcases List.mem_cons.mp hx with hx | hx
          · subst hx; exact hc
          · intro hmem
            exact hrec.1 x hx (List.mem_append.mpr (Or.inl hmem))
        · rw [List.pairwise_cons]
          refine ⟨?_, hrec.2⟩
          intro b hb
          have hnb : b ∉ mark c := fun hm =>
            hrec.1 b hb (List.mem_append.mpr (Or.inr hm))
          have h2 : ¬ |b - c| ≤ hw := fun hle => hnb (hmark c b hle)
          push_neg at h2
          rw [abs_sub_comm] at h2
          omega

theorem carMark_complete : ∀ c d : Int, |d - c| ≤ 1 → d ∈ carMark c := by
  intro c d h
  rw [abs_le] at h
  have hd : d = c - 1 ∨ d = c ∨ d = c + 1 := by omega
  rcases hd with h | h | h <;> simp [carMark, h]

theorem truckMark_complete : ∀ c d : Int, |d - c| ≤ 2 → d ∈ truckMark c := by
  intro c d h
  rw [abs_le] at h
  have hd : d = c - 2 ∨ d = c - 1 ∨ d = c ∨ d = c + 1 ∨ d = c + 2 := by omega
  rcases hd with h | h | h | h | h <;> simp [truckMark, h]

/-- C1 (counterexample): with the in-range samples 0, 2, 5 the car
generator accepts centres 0 and 2 — only the centre tile is tested against
the occupied set — and their 3-lane footprints share lane 1; with samples
0 and 3 the truck generator accepts centres whose 5-lane footprints share
lanes 1 and 2.  So two vehicles of one generated row can have overlapping
initial footprints, refuting the claim. -/
theorem c1_counterexample :
    Option.map rowCenters (generateCarLaneMetadata true 100 (fun _ => 1)
      (fun n => if n = 0 then 0 else if n = 1 then 2 else 5) 10) = some ([0, 2, 5]) ∧
    (carMark 0).any (fun lane => lane ∈ carMark 2) = true ∧
    Option.map rowCenters (generateTruckLaneMetadata true 100 (fun _ => 1)
      (fun n => if n = 0 then 0 else 3) 10) = some ([0, 3]) ∧
    (truckMark 0).any (fun lane => lane ∈ truckMark 3) = true := by
  refine ⟨?_, ?_, ?_, ?_⟩ <;> decide

/-- C1 (amended): what generation does guarantee is centre separation: in
any generated car row the vehicles' initial tiles are pairwise at distance
at least 2, and in any generated truck row at distance at least 3 — no
vehicle's centre lies inside another's footprint, though footprint edges
can still overlap (by at most one lane for cars, two for trucks). -/
theorem c1_amended_center_separation (direction : Bool) (speed : ℚ)
    (colorOf : Nat → Nat) (stream : Nat → Int) (fuel : Nat) :
    (∀ (dir2 : Bool) (sp2 : ℚ) (vs : List Vehicle),
      generateCarLaneMetadata direction speed colorOf stream fuel =
        some (RowData.car dir2 sp2 vs) →
      (vs.map Vehicle.initialTileIndex).Pairwise (fun a b => 2 ≤ |a - b|)) ∧
    (∀ (dir2 : Bool) (sp2 : ℚ) (vs : List Vehicle),
      generateTruckLaneMetadata direction speed colorOf stream fuel =
        some (RowData.truck dir2 sp2 vs) →
      (vs.map Vehicle.initialTileIndex).Pairwise (fun a b => 3 ≤ |a - b|)) := by
  constructor
  · intro dir2 sp2 vs h
    unfold generateCarLaneMetadata at h
    cases hg : genCenters carMark 3 stream 0 [] fuel with
    | none => rw [hg] at h; simp at h
    | some cs =>
      rw [hg] at h
      simp [RowData.car.injEq] at h
      have hsep := (genCenters_separation carMark 1 carMark_complete
        3 stream 0 [] fuel cs hg).2
      have hmap : (List.map Vehicle.initialTileIndex (cs.enum.map
          (fun ic => { initialTileIndex := ic.2, color := colorOf ic.1,
                       x := (ic.2 : ℚ) * tileSize : Vehicle }))) = cs := by
        rw [List.map_map]
        exact List.enum_map_snd cs
      rw [← h.2.2, hmap]
      exact hsep
  · intro dir2 sp2 vs h
    unfold generateTruckLaneMetadata at h
    cases hg : genCenters truckMark 2 stream 0 [] fuel with
    | none => rw [hg] at h; simp at h
    | some cs =>
      rw [hg] at h
      simp [RowData.truck.injEq] at h
      have hsep := (genCenters_separation truckMark 2 truckMark_complete
        2 stream 0 [] fuel cs hg).2
      have hmap : (List.map Vehicle.initialTileIndex (cs.enum.map
          (fun ic => { initialTileIndex := ic.2, color := colorOf ic.1,
                       x := (ic.2 : ℚ) * tileSize : Vehicle }))) = cs := by
        rw [List.map_map]
        exact List.enum_map_snd cs
      rw [← h.2.2, hmap]
      exact hsep

theorem sampleRejecting_all_occupied (stream : Nat → Int) (occupied : List Int)
    (hall : ∀ n, stream n ∈ occupied) :
    ∀ (fuel idx : Nat), sampleRejecting stream occupied idx fuel = none := by
  intro fuel
  induction fuel with
  | zero => intro idx; rfl
  | succ n ih =>
    intro idx
    unfold sampleRejecting
    rw [if_pos (hall idx)]
    exact ih (idx + 1)

/-- C7 (counterexample): the rejection loops are not bounded-retry: with
the occupied set covering the whole sampled lane range and in-range
samples, the shared sampling loop has produced neither a result nor any
explicit error after 100 iterations, and each generator (forest, car,
truck) likewise yields nothing — there is no retry bound at which the code
errors out, it simply keeps looping. -/
theorem c7_counterexample :
    sampleRejecting (fun _ => 0)
      [-8, -7, -6, -5, -4, -3, -2, -1, 0, 1, 2, 3, 4, 5, 6, 7, 8] 0 100 = none ∧
    genCenters forestMark 4 (fun _ => 0) 0
      [-8, -7, -6, -5, -4, -3, -2, -1, 0, 1, 2, 3, 4, 5, 6, 7, 8] 100 = none ∧
    genCenters carMark 3 (fun _ => 0) 0
      [-8, -7, -6, -5, -4, -3, -2, -1, 0, 1, 2, 3, 4, 5, 6, 7, 8] 100 = none ∧
    genCenters truckMark 2 (fun _ => 0) 0
      [-8, -7, -6, -5, -4, -3, -2, -1, 0, 1, 2, 3, 4, 5, 6, 7, 8] 100 = none := by
  refine ⟨?_, ?_, ?_, ?_⟩ <;> decide

/-- C7 (amended): the sampling loop is an unbounded `do`/`while`: whenever
every value the stream produces is already occupied — the pathological
parameterization where the occupied set covers the sampled range — the
loop never terminates (for every finite iteration count it is still
spinning), and any generator drawing at least one occupant produces
nothing; no bounded-retry error exists in the code. -/
theorem c7_amended_unbounded_loop (stream : Nat → Int) (occupied : List Int)
    (hall : ∀ n : Nat, stream n ∈ occupied) :
    (∀ idx fuel : Nat, sampleRejecting stream occupied idx fuel = none) ∧
    (∀ (mark : Int → List Int) (count idx fuel : Nat), 0 < count →
      genCenters mark count stream idx occupied fuel = none) := by
  refine ⟨fun idx fuel => sampleRejecting_all_occupied stream occupied hall fuel idx, ?_⟩
  intro mark count idx fuel hcount
  match count, hcount with
  | Nat.succ n, _ =>
    unfold genCenters
    rw [sampleRejecting_all_occupied stream occupied hall fuel idx]

/-- C6 (counterexample): a vehicle with `speed = 100`, `direction = true`
and its offset exactly at the positive wrap boundary
`endOfRow = (maxTileIndex + 2) * tileSize = 420` does not reset on the
next tick with `deltaTime = 1`: the wrap test `x > endOfRow` is strict, so
the offset continues to increase to 520 instead of resetting to the
negative boundary -420. -/
theorem c6_counterexample :
    animateVehicleX true 100 1 endOfRow = endOfRow + 100 ∧
    endOfRow + 100 ≠ beginningOfRow ∧
    endOfRow < endOfRow + 100 := by
  refine ⟨?_, ?_, ?_⟩ <;>
    norm_num [animateVehicleX, endOfRow, beginningOfRow, maxTileIndex, minTileIndex,
      tileSize]

/-- C6 (amended): the wrap test is strict: a positive-direction vehicle
wraps to `beginningOfRow` exactly when its offset already exceeds
`endOfRow`, and otherwise advances by `speed * delta`; so a vehicle
exactly at the boundary advances past it on this tick and wraps only on
the following tick; symmetrically for `direction = false` at the opposite
bound. -/
theorem c6_amended_strict_wrap (speed delta x : ℚ) :
    (endOfRow < x → animateVehicleX true speed delta x = beginningOfRow) ∧
    (x ≤ endOfRow → animateVehicleX true speed delta x = x + speed * delta) ∧
    (x < beginningOfRow → animateVehicleX false speed delta x = endOfRow) ∧
    (beginningOfRow ≤ x → animateVehicleX false speed delta x = x - speed * delta) ∧
    animateVehicleX true 100 1 (animateVehicleX true 100 1 endOfRow) = beginningOfRow := by
  refine ⟨?_, ?_, ?_, ?_, ?_⟩
  · intro h; simp [animateVehicleX, h]
  · intro h; simp [animateVehicleX, not_lt.mpr h]
  · intro h; simp [animateVehicleX, h, not_lt.mpr (le_of_lt h)]
  · intro h; simp [animateVehicleX, not_lt.mpr h]
  · norm_num [animateVehicleX, endOfRow, beginningOfRow, maxTileIndex, minTileIndex,
      tileSize]

/-- C8: terminal collision is one-way: a frame with the animation loop
cleared mutates nothing at all; no frame ever re-installs the loop; a
frame-level hit test that fires clears the loop (`showGameOver` passing
`null` to `setAnimationLoop`); and only an explicit restart
(`initializeGame`) reinitializes the committed position, the queue and the
timeline, with the loop reinstalled. -/
theorem c8_terminal_one_way :
    (∀ (delta : ℚ) (newRows : List RowData) (s : GameState),
      s.loopActive = false → frame delta newRows s = s) ∧
    (∀ (delta : ℚ) (newRows : List RowData) (s : GameState),
      (frame delta newRows s).loopActive = true → s.loopActive = true) ∧
    (∀ s : GameState, hitTestHit s = true → hitTest s = { s with loopActive := false }) ∧
    (∀ newRows : List RowData,
      (initializeGame newRows).currentRow = 0 ∧
      (initializeGame newRows).currentTile = 0 ∧
      (initializeGame newRows).movesQueue = [] ∧
      (initializeGame newRows).metadata = newRows ∧
      (initializeGame newRows).loopActive = true) := by
  refine ⟨?_, ?_, ?_, ?_⟩
  · intro delta newRows s h
    simp [frame, h]
  · intro delta newRows s h
    cases hl : s.loopActive with
    | true => rfl
    | false =>
      rw [frame, if_neg (by simp [hl])] at h
      rw [h] at hl
      exact absurd hl (by decide)
  · intro s h
    simp [hitTest, h]
  · intro newRows
    exact ⟨rfl, rfl, rfl, rfl, rfl⟩

/-- C7 (amended, witness): the constant in-range sample 0 with the whole
lane range `[-8, 8]` occupied: the sampling loop is still spinning after
150 iterations and the car generator produces nothing. -/
theorem c7_amended_witness :
    sampleRejecting (fun _ => 0)
      [-8, -7, -6, -5, -4, -3, -2, -1, 0, 1, 2, 3, 4, 5, 6, 7, 8] 0 150 = none ∧
    genCenters carMark 3 (fun _ => 0) 0
      [-8, -7, -6, -5, -4, -3, -2, -1, 0, 1, 2, 3, 4, 5, 6, 7, 8] 150 = none := by
  have h := c7_amended_unbounded_loop (fun _ => 0)
    [-8, -7, -6, -5, -4, -3, -2, -1, 0, 1, 2, 3, 4, 5, 6, 7, 8]
    (fun _ =>
      (by decide : (0 : Int) ∈ [-8, -7, -6, -5, -4, -3, -2, -1, 0, 1, 2, 3, 4, 5, 6, 7, 8]))
  exact ⟨h.1 0 150, h.2 carMark 3 0 150 (by decide)⟩

/-- C8 (witness): a committed row coinciding with a car row whose vehicle
box overlaps the player box: the hit test fires and clears the loop, and a
frame on the stopped state mutates nothing. -/
theorem c8_witness :
    hitTest
      { currentRow := 1, currentTile := 0, movesQueue := [],
        metadata := [RowData.car true 100 [{ initialTileIndex := 0, color := 1, x := 0 }]],
        playerX := 0, playerY := 42, playerZ := 0,
        moveElapsed := 0, moveRunning := false, loopActive := true } =
      { currentRow := 1, currentTile := 0, movesQueue := [],
        metadata := [RowData.car true 100 [{ initialTileIndex := 0, color := 1, x := 0 }]],
        playerX := 0, playerY := 42, playerZ := 0,
        moveElapsed := 0, moveRunning := false, loopActive := false } ∧
    frame 0 []
      { currentRow := 1, currentTile := 0, movesQueue := [],
        metadata := [RowData.car true 100 [{ initialTileIndex := 0, color := 1, x := 0 }]],
        playerX := 0, playerY := 42, playerZ := 0,
        moveElapsed := 0, moveRunning := false, loopActive := false } =
      { currentRow := 1, currentTile := 0, movesQueue := [],
        metadata := [RowData.car true 100 [{ initialTileIndex := 0, color := 1, x := 0 }]],
        playerX := 0, playerY := 42, playerZ := 0,
        moveElapsed := 0, moveRunning := false, loopActive := false } := by
  constructor
  · exact c8_terminal_one_way.2.2.1 _ (by
      norm_num [hitTestHit, rowAt, playerBoundingBox, setFromObjectBox, carChildBoxes,
        boxFromCenterSize, translateBox, boxUnion, intersectsBox, tileSize, rotateZPi,
        List.any, min_def, max_def])
  · exact c8_terminal_one_way.1 0 [] _ rfl
